import Mathlib

/-!
Verification of the fuzzy identity-matching and confidence-scoring engine
described in spec.md, together with the caption-formatting helpers of
stashdb_integration.py.

The similarity engine itself (matching_utils.py) is not present in the
source tree; only its tests (test_matching.py) and demo (demo_matching.py)
are.  Its functions are therefore modelled from the specification, as
indicated by the doc comment of each such definition.  The caption helpers
(parse_filename, get_female_performer_names, get_top_tags,
generate_clean_caption) are translated directly from
src/stashdb_integration.py.

Scores are modelled as rationals; the Python floats involved are exact
binary fractions only in trivial cases, so the rational model is the
faithful idealisation of the arithmetic the spec describes.
-/

/-- Modelled from the spec (§4.1 Normalizer): collapse runs of repeated
spaces to a single space. -/
def collapseWS : List Char → List Char
  | [] => []
  | [c] => [c]
  | a :: b :: rest =>
    if a = ' ' ∧ b = ' ' then collapseWS (b :: rest) else a :: collapseWS (b :: rest)

/-- Drop leading and trailing spaces. -/
def trimSpaces (l : List Char) : List Char :=
  ((l.dropWhile (fun c => c == ' ')).reverse.dropWhile (fun c => c == ' ')).reverse

/-- Modelled from the spec (§4.1 Normalizer, `normalize`): lowercase, strip
characters outside alphanumerics and whitespace, collapse repeated
whitespace, trim.  Whitespace characters are canonicalised to a space. -/
def normChars (l : List Char) : List Char :=
  trimSpaces (collapseWS ((l.map Char.toLower).filterMap
    (fun c => if c.isAlphanum then some c else if c.isWhitespace then some ' ' else none)))

/-- Remove the spaces of an (already normalised) character list. -/
def spaceRemoved (l : List Char) : List Char :=
  l.filter (fun c => c != ' ')

/-- One sweep of the dynamic-programming computation of edit distance:
given the previous row (starting at column j), the characters of the
second string from column j on, and the value just written at column j of
the new row, produce the new row from column j+1 on. -/
def rowAux (x : Char) : List Char → List Nat → Nat → List Nat
  | [], _, _ => []
  | y :: ys, prev, left =>
    match prev with
    | p0 :: p1 :: rest =>
      let c := if x = y then p0 else p0 + 1
      let v := min c (min (p1 + 1) (left + 1))
      v :: rowAux x ys (p1 :: rest) v
    | _ => []

/-- Advance the edit-distance table by one row (one character of the first
string). -/
def levRow (x : Char) (ys : List Char) (prev : List Nat) : List Nat :=
  match prev with
  | [] => []
  | p0 :: _ => (p0 + 1) :: rowAux x ys prev (p0 + 1)

/-- `ascFrom s m` is the list `[s, s+1, …, s+m-1]`. -/
def ascFrom : Nat → Nat → List Nat
  | _, 0 => []
  | s, m + 1 => s :: ascFrom (s + 1) m

/-- Levenshtein edit distance, computed row by row so that every step is
structurally recursive. -/
def levDist (a b : List Char) : Nat :=
  (a.foldl (fun prev x => levRow x b prev) (0 :: ascFrom 1 b.length)).getLastD 0

/-- Edit-distance-based similarity of two character lists, clamped into
`[0,1]` as the spec's metric contract requires. -/
def ratio01 (a b : List Char) : ℚ :=
  max 0 (1 - (levDist a b : ℚ) / ((max a.length b.length : Nat) : ℚ))

/-- Modelled from the spec (§4.2, full-ratio; the Python name is
`calculate_similarity` in matching_utils.py, absent from src/): normalised
edit-distance similarity over the whole normalised strings, `0.0` when
either normalised input is empty. -/
def calculate_similarity (s1 s2 : String) : ℚ :=
  let t1 := normChars s1.data
  let t2 := normChars s2.data
  if t1 = [] ∨ t2 = [] then 0 else ratio01 t1 t2

/-- Similarities of the shorter string against every window of the longer
string of the shorter string's length. -/
def windowScores (short long : List Char) : List ℚ :=
  (List.range (long.length - short.length + 1)).map
    (fun i => ratio01 short ((long.drop i).take short.length))

/-- Modelled from the spec (§4.2, partial-ratio; `calculate_partial_similarity`
in matching_utils.py, absent from src/): best-alignment substring
similarity, `0.0` when either normalised input is empty. -/
def calculate_partial_similarity (s1 s2 : String) : ℚ :=
  let t1 := normChars s1.data
  let t2 := normChars s2.data
  if t1 = [] ∨ t2 = [] then 0
  else if t1.length ≤ t2.length then (windowScores t1 t2).foldl max 0
  else (windowScores t2 t1).foldl max 0

/-- Split a character list at whitespace, keeping the non-empty words. -/
def splitWSAux : List Char → List Char → List (List Char)
  | [], acc => [acc.reverse]
  | c :: rest, acc =>
    if c.isWhitespace then acc.reverse :: splitWSAux rest []
    else splitWSAux rest (c :: acc)

/-- The whitespace-separated words of a character list. -/
def wordsOf (l : List Char) : List (List Char) :=
  (splitWSAux l []).filter (fun w => !w.isEmpty)

/-- Lexicographic comparison of character lists, used to sort tokens. -/
def lexLe : List Char → List Char → Bool
  | [], _ => true
  | _ :: _, [] => false
  | a :: as, b :: bs => if a < b then true else if b < a then false else lexLe as bs

/-- Insert a token into a lexicographically sorted list of tokens. -/
def insertSorted (x : List Char) : List (List Char) → List (List Char)
  | [] => [x]
  | y :: ys => if lexLe x y then x :: y :: ys else y :: insertSorted x ys

/-- Insertion sort of a token list. -/
def sortTokens : List (List Char) → List (List Char)
  | [] => []
  | x :: xs => insertSorted x (sortTokens xs)

/-- Rejoin tokens with single spaces. -/
def joinSpace : List (List Char) → List Char
  | [] => []
  | [w] => w
  | w :: rest => w ++ ' ' :: joinSpace rest

/-- Modelled from the spec (§4.2, token-sort ratio;
`calculate_token_similarity` in matching_utils.py, absent from src/):
tokenize, sort tokens, rejoin, apply full-ratio; `0.0` when either
normalised input is empty. -/
def calculate_token_similarity (s1 s2 : String) : ℚ :=
  let t1 := normChars s1.data
  let t2 := normChars s2.data
  if t1 = [] ∨ t2 = [] then 0
  else ratio01 (joinSpace (sortTokens (wordsOf t1))) (joinSpace (sortTokens (wordsOf t2)))

/-- All contiguous length-`n` shingles of a character list. -/
def shingles (l : List Char) (n : Nat) : List (List Char) :=
  (List.range (l.length + 1 - n)).map (fun i => (l.drop i).take n)

/-- The deduplicated shingle set of the normalised, space-removed string. -/
def shingleSet (s : String) (n : Nat) : List (List Char) :=
  (shingles (spaceRemoved (normChars s.data)) n).dedup

/-- Set intersection of two shingle lists. -/
def interL (A B : List (List Char)) : List (List Char) :=
  A.filter (fun a => decide (a ∈ B))

/-- Set union of two shingle lists: the part of `A` outside `B`, then `B`;
for deduplicated inputs its length is the cardinality of the union. -/
def unionL (A B : List (List Char)) : List (List Char) :=
  A.filter (fun a => decide (a ∉ B)) ++ B

/-- Jaccard overlap of two (deduplicated) shingle lists; `0` when either is
empty. -/
def jaccardQ (A B : List (List Char)) : ℚ :=
  if A = [] ∨ B = [] then 0
  else ((interL A B).length : ℚ) / ((unionL A B).length : ℚ)

/-- Modelled from the spec (§4.4 N-gram Matcher; `ngram_similarity` in
matching_utils.py, absent from src/): set overlap of character shingles of
the normalised, space-removed strings; `1.0` when both inputs are empty,
`0.0` whenever a shingle set is empty otherwise. -/
def ngram_similarity (s1 s2 : String) (n : Nat) : ℚ :=
  if s1 = "" ∧ s2 = "" then 1
  else jaccardQ (shingleSet s1 n) (shingleSet s2 n)

/-- Soundex-style consonant-class digit of a letter. -/
def soundexDigit (c : Char) : Option Char :=
  if c = 'b' ∨ c = 'f' ∨ c = 'p' ∨ c = 'v' then some '1'
  else if c = 'c' ∨ c = 'g' ∨ c = 'j' ∨ c = 'k' ∨ c = 'q' ∨ c = 's' ∨ c = 'x' ∨ c = 'z' then some '2'
  else if c = 'd' ∨ c = 't' then some '3'
  else if c = 'l' then some '4'
  else if c = 'm' ∨ c = 'n' then some '5'
  else if c = 'r' then some '6'
  else none

/-- Collapse adjacent duplicate characters. -/
def collapseAdj : List Char → List Char
  | [] => []
  | [c] => [c]
  | a :: b :: rest =>
    if a = b then collapseAdj (b :: rest) else a :: collapseAdj (b :: rest)

/-- Reduce the digraph "ph" to the single sound "f" before phonetic
encoding, so that spelling variants such as Sophia/Sofia agree. -/
def phReduce : List Char → List Char
  | [] => []
  | 'p' :: 'h' :: rest => 'f' :: phReduce rest
  | c :: rest => c :: phReduce rest

/-- Modelled from the spec (§4.3, the coarse consonant-class code): a
Soundex-style code — the first three consonant-class digits of the name,
adjacent duplicates collapsed, zero-padded.  The leading letter is encoded
by its class like every other letter, so that same-sound initials
(Caitlyn/Kaitlyn) agree on the coarse code, as the spec's rescue property
(§8) requires. -/
def soundexCode (l : List Char) : List Char :=
  ((collapseAdj ((phReduce l).filterMap soundexDigit)) ++ ['0', '0', '0']).take 3

/-- Metaphone-style sound letter of a character: same-sound consonants
(c/k/q, g/j, s/x/z, f/v, d/t) are merged to one representative; vowels and
the silent-ish h, w, y are dropped. -/
def metaphoneChar (c : Char) : Option Char :=
  if c = 'b' then some 'B'
  else if c = 'p' then some 'P'
  else if c = 'f' ∨ c = 'v' then some 'F'
  else if c = 'c' ∨ c = 'k' ∨ c = 'q' then some 'K'
  else if c = 'g' ∨ c = 'j' then some 'J'
  else if c = 's' ∨ c = 'x' ∨ c = 'z' then some 'S'
  else if c = 'd' ∨ c = 't' then some 'T'
  else if c = 'l' then some 'L'
  else if c = 'm' then some 'M'
  else if c = 'n' then some 'N'
  else if c = 'r' then some 'R'
  else none

/-- Modelled from the spec (§4.3, the finer name-specific code): a
Metaphone-style key — the full (untruncated) sequence of sound letters of
the name, adjacent duplicates collapsed.  Finer than the coarse code: it
keeps every position and distinguishes sounds the Soundex classes merge
(K/J/S within class 2, B/P/F within class 1, M/N within class 5), while
still identifying same-sound spellings (c/k, f/v/ph):
Caitlyn and Kaitlyn both encode to KTLN. -/
def metaphoneKey (l : List Char) : List Char :=
  collapseAdj ((phReduce l).filterMap metaphoneChar)

/-- Modelled from the spec (§4.3 Phonetic Matcher; `phonetic_match` in
matching_utils.py, absent from src/): agreement on both phonetic codes
scores `1`, agreement on the coarse code only scores `3/5` (inside the
spec's `0.5–0.7` band), otherwise `0`; empty normalised input scores `0`. -/
def phonetic_match (s1 s2 : String) : ℚ :=
  let t1 := spaceRemoved (normChars s1.data)
  let t2 := spaceRemoved (normChars s2.data)
  if t1 = [] ∨ t2 = [] then 0
  else if soundexCode t1 = soundexCode t2 then
    if metaphoneKey t1 = metaphoneKey t2 then 1 else 3/5
  else 0

/-- The component breakdown exposed by the combiner's debug mode (§3
SimilarityComponents). -/
structure SimilarityComponents where
  fullScore : ℚ
  partialScore : ℚ
  tokenSortScore : ℚ
  bigramScore : ℚ
  trigramScore : ℚ
deriving DecidableEq

/-- Modelled from the spec (§4.5): the fixed weighted combination of the
five lexical metrics; the weights sum to `1`. -/
def weightedSum (c : SimilarityComponents) : ℚ :=
  (1/5) * c.fullScore + (3/20) * c.partialScore + (3/10) * c.tokenSortScore
    + (1/5) * c.bigramScore + (3/20) * c.trigramScore

/-- Clip a score into `[0,1]`. -/
def clip01 (q : ℚ) : ℚ := max 0 (min 1 q)

/-- The five lexical component metrics of a string pair. -/
def similarityComponents (s1 s2 : String) : SimilarityComponents where
  fullScore := calculate_similarity s1 s2
  partialScore := calculate_partial_similarity s1 s2
  tokenSortScore := calculate_token_similarity s1 s2
  bigramScore := ngram_similarity s1 s2 2
  trigramScore := ngram_similarity s1 s2 3

/-- Modelled from the spec (§4.5 Combiner; `combined_similarity` in
matching_utils.py, absent from src/): `0.0` when either raw input is
empty, otherwise the weighted component sum clipped into `[0,1]`. -/
def combined_similarity (s1 s2 : String) : ℚ :=
  if s1 = "" ∨ s2 = "" then 0
  else clip01 (weightedSum (similarityComponents s1 s2))

/-- Modelled from the spec (§4.5, `debug=true`): the same computation, also
exposing the component breakdown. -/
def combined_similarity_debug (s1 s2 : String) : ℚ × SimilarityComponents :=
  let comps := similarityComponents s1 s2
  (if s1 = "" ∨ s2 = "" then 0 else clip01 (weightedSum comps), comps)

/-- Modelled from the spec (§4.1, `normalize_single_char_name`, absent from
src/): a name written as a single initial glued to a capitalised surname
gets a space inserted after the initial; anything else is untouched. -/
def normalize_single_char_name (name : String) : String :=
  match name.data with
  | c0 :: c1 :: c2 :: rest =>
    if ¬ (' ' ∈ name.data) ∧ c0.isAlpha ∧ c1.isUpper ∧ c2.isLower
    then ⟨c0 :: ' ' :: c1 :: c2 :: rest⟩
    else name
  | _ => name

/-- Modelled from the spec (§4.6 Enhanced Performer Match;
`enhanced_performer_match` in matching_utils.py, absent from src/): apply
single-char-name normalisation to both names, then take the maximum of the
combined lexical similarity and the phonetic similarity. -/
def enhanced_performer_match (name1 name2 : String) : ℚ :=
  let m1 := normalize_single_char_name name1
  let m2 := normalize_single_char_name name2
  max (combined_similarity m1 m2) (phonetic_match m1 m2)

/-- A performer record of a scene: name and gender, as returned by the
remote databases (see the GraphQL queries of stashdb_integration.py). -/
structure PerformerRec where
  name : String
  gender : String
deriving DecidableEq

/-- A candidate scene record (§3 MatchCandidate / the scene dicts of
stashdb_integration.py).  A `none` performer entry models a malformed
entry (the Python code skips entries that are not dicts); an absent studio
models a scene whose studio field is missing or not a dict. -/
structure SceneData where
  title : String
  studio : Option String
  performers : List (Option PerformerRec)
  tags : List String
deriving DecidableEq

/-- The result of the confidence scorer (§3 ConfidenceResult). -/
structure ConfidenceResult where
  title_similarity : ℚ
  performer_similarity : ℚ
  studio_match : ℚ
  final_score : ℚ
  strong_match_bonus : Bool
deriving DecidableEq

/-- Modelled from the spec (§4.7): the fixed additive studio bonus. -/
def studioBonus : ℚ := 1/10

/-- Modelled from the spec (§4.7): the strong-match threshold (`≥ 0.85`). -/
def strongThreshold : ℚ := 17/20

/-- The performer names of a scene record (malformed entries skipped). -/
def scenePerformerNames (scene : SceneData) : List String :=
  (scene.performers.filterMap id).map PerformerRec.name

/-- Modelled from the spec (§4.7, step 2): the performer component — the
best enhanced match of the parsed performer against the scene's performer
names, `0` when the parsed performer is absent or empty or the scene has
no performers. -/
def performerSim (scene : SceneData) : Option String → ℚ
  | none => 0
  | some p =>
    if p = "" then 0
    else (scenePerformerNames scene).foldl (fun acc nm => max acc (enhanced_performer_match p nm)) 0

/-- Modelled from the spec (§4.7, step 3): the studio component — the fixed
bonus when the detected studio normalised-equals the scene's studio name
(and that normalisation is non-empty), else `0`. -/
def studioMatchScore : Option String → Option String → ℚ
  | some d, some sn =>
    if normChars d.data = normChars sn.data ∧ normChars d.data ≠ [] then studioBonus else 0
  | _, _ => 0

/-- Modelled from the spec (§4.7, step 4): the weighted average over the
available components — the title alone when the parsed performer is
absent, else title at weight 3/5 and performer at weight 2/5. -/
def baseScore (tSim pSim : ℚ) : Option String → ℚ
  | none => tSim
  | some p => if p = "" then tSim else (3/5) * tSim + (2/5) * pSim

/-- Modelled from the spec (§4.7 Confidence Scorer;
`calculate_match_confidence` in matching_utils.py, absent from src/):
title similarity from the combiner; performer similarity as the best
enhanced match against the scene's performer names, `0` and excluded from
the weighted average when the parsed performer is absent; a fixed additive
studio bonus when the detected studio normalised-equals the scene studio;
the final score clipped into `[0,1]`; the strong-match flag advisory
only. -/
def calculate_match_confidence (filename : String) (scene : SceneData)
    (parsed_performer : Option String) (parsed_title : String)
    (detected_studio : Option String) : ConfidenceResult :=
  let tSim := combined_similarity parsed_title scene.title
  let pSim := performerSim scene parsed_performer
  let sMatch := studioMatchScore detected_studio scene.studio
  { title_similarity := tSim
    performer_similarity := pSim
    studio_match := sMatch
    final_score := clip01 (baseScore tSim pSim parsed_performer + sMatch)
    strong_match_bonus := if strongThreshold ≤ tSim ∧ strongThreshold ≤ pSim then true else false }

/-- From src/stashdb_integration.py (`os.path.splitext`): drop the
extension, the part after the last dot — unless every character before
that dot is itself a dot (Python treats leading dots as part of the name,
not as an extension separator). -/
def dropExt (l : List Char) : List Char :=
  match l.reverse.findIdx? (fun c => c == '.') with
  | none => l
  | some k =>
    if (l.take (l.length - 1 - k)).all (fun c => c == '.') then l
    else l.take (l.length - 1 - k)

/-- From src/stashdb_integration.py (`parse_filename`): replace dots and
underscores by spaces. -/
def replaceSep (l : List Char) : List Char :=
  l.map (fun c => if c = '.' ∨ c = '_' then ' ' else c)

/-- From src/stashdb_integration.py (`parse_filename`): split at the first
occurrence of the separator " - ", when present. -/
def splitDash : List Char → Option (List Char × List Char)
  | [] => none
  | c :: rest =>
    if c = ' ' ∧ rest.take 2 = ['-', ' '] then some ([], rest.drop 2)
    else
      match splitDash rest with
      | some (before, after) => some (c :: before, after)
      | none => none

/-- Python `str.strip()`: drop leading and trailing whitespace. -/
def stripWS (l : List Char) : List Char :=
  ((l.dropWhile Char.isWhitespace).reverse.dropWhile Char.isWhitespace).reverse

/-- From src/stashdb_integration.py (`parse_filename`): extract an optional
performer and a title from a media filename. -/
def parse_filename (filename : String) : Option String × String :=
  let name := replaceSep (dropExt filename.data)
  match splitDash name with
  | some (before, after) => (some ⟨stripWS before⟩, ⟨stripWS after⟩)
  | none =>
    let ws := wordsOf name
    if 4 ≤ ws.length then (some ⟨joinSpace (ws.take 2)⟩, ⟨joinSpace (ws.drop 2)⟩)
    else (none, ⟨name⟩)

/-- Python `str.upper()` on the character list of a string. -/
def upperStr (s : String) : String := ⟨s.data.map Char.toUpper⟩

/-- From src/stashdb_integration.py (`get_female_performer_names`): a
performer is kept when it has a name and its gender is empty/unknown or is
FEMALE or F after upcasing. -/
def qualifies (r : PerformerRec) : Bool :=
  (r.name != "") && ((r.gender == "") || ["FEMALE", "F", ""].contains (upperStr r.gender))

/-- From src/stashdb_integration.py (`get_female_performer_names`): the
collection loop, which appends qualifying names and stops as soon as two
names have been collected. -/
def collectFemales : List (Option PerformerRec) → List String → List String
  | [], acc => acc
  | none :: rest, acc => collectFemales rest acc
  | some r :: rest, acc =>
    if qualifies r then
      let acc2 := acc ++ [r.name]
      if 2 ≤ acc2.length then acc2 else collectFemales rest acc2
    else collectFemales rest acc

/-- From src/stashdb_integration.py (`get_female_performer_names`): return
at most two qualifying performer names, joined by " & " when there are
two, and `none` when there are none (including the empty list). -/
def get_female_performer_names (performers : List (Option PerformerRec)) : Option String :=
  if performers.isEmpty then none
  else
    match collectFemales performers [] with
    | [a] => some a
    | [a, b] => some (a ++ " & " ++ b)
    | _ => none

/-- The qualifying performer names of a list, in order, without the
early-exit of the collection loop; used to state what the loop returns. -/
def qualNames (ps : List (Option PerformerRec)) : List String :=
  ((ps.filterMap id).filter (fun r => qualifies r)).map PerformerRec.name

/-- From src/stashdb_integration.py (`get_top_tags`): lowercase the tag,
keep word characters and whitespace, then remove the spaces. -/
def cleanTag (t : String) : String :=
  ⟨((t.data.map Char.toLower).filter
      (fun c => c.isAlphanum || c == '_' || c.isWhitespace)).filter (fun c => c != ' ')⟩

/-- From src/stashdb_integration.py (`get_top_tags`): take the first
`max_tags` tags, clean each, keep the ones longer than two characters. -/
def get_top_tags (tags : List String) (max_tags : Nat) : List String :=
  ((tags.take max_tags).filterMap (fun t =>
    let c := cleanTag t
    if c ≠ "" ∧ 2 < c.length then some c else none)).take max_tags

/-- Python `sep.join(strings)`. -/
def joinWith (sep : String) : List String → String
  | [] => ""
  | [x] => x
  | x :: rest => x ++ sep ++ joinWith sep rest

/-- From src/stashdb_integration.py (`generate_clean_caption`): the caption
text before the final length truncation. -/
def buildCaption (scene : SceneData) (original_filename : Option String) (source : String) : String :=
  let t0 := scene.title
  let t1 :=
    if t0 = "" then
      match original_filename with
      | some f => if f = "" then "" else (parse_filename f).2
      | none => ""
    else t0
  let title := if t1 = "" then "Scene" else t1
  let studio_name := match scene.studio with | some sn => sn | none => ""
  let performer_str :=
    match get_female_performer_names scene.performers with
    | some p => p
    | none => ""
  let tag_list := get_top_tags scene.tags 5
  let source_emoji := if source = "stashdb" ∨ source = "fansdb" then "🌐" else "📁"
  let head_lines : List String :=
    if performer_str ≠ "" ∧ studio_name ≠ "" then
      [source_emoji ++ " <b>" ++ performer_str ++ " — " ++ title ++ "</b>", "📺 " ++ studio_name]
    else if performer_str ≠ "" then
      [source_emoji ++ " <b>" ++ performer_str ++ " — " ++ title ++ "</b>"]
    else if studio_name ≠ "" then
      [source_emoji ++ " <b>" ++ title ++ "</b>", "📺 " ++ studio_name]
    else [source_emoji ++ " <b>" ++ title ++ "</b>"]
  let lines := head_lines ++
    (if tag_list.isEmpty then [] else ["\n" ++ joinWith " " (tag_list.map (fun tg => "#" ++ tg))])
  joinWith "\n" lines

/-- From src/stashdb_integration.py (`generate_clean_caption`): build the
caption and truncate it to its first 1020 characters followed by "..."
when it exceeds 1024 characters. -/
def generate_clean_caption (scene : SceneData) (original_filename : Option String)
    (source : String) : String :=
  let caption := buildCaption scene original_filename source
  if 1024 < caption.length then (⟨caption.data.take 1020⟩ : String) ++ "..." else caption

/-- `countdown d` is the list `[d, d-1, …, 1, 0]`. -/
def countdown : Nat → List Nat
  | 0 => [0]
  | d + 1 => (d + 1) :: countdown d

theorem countdown_append_cons (d : Nat) (L : List Nat) :
    countdown d ++ L = d :: ((countdown d).tail ++ L) := by
  cases d <;> rfl

theorem rowAux_asc (x : Char) :
    ∀ (ys : List Char) (a : Nat),
      rowAux x ys (ascFrom (a + 1) (ys.length + 1)) a = ascFrom (a + 1) ys.length := by
  intro ys
  induction ys with
  | nil => intro a; rfl
  | cons y ys ih =>
    intro a
    have hasc : ascFrom (a + 1) ((y :: ys).length + 1)
        = (a + 1) :: (a + 2) :: ascFrom (a + 3) ys.length := by
      simp [ascFrom, List.length_cons]
    rw [hasc]
    show (min (if x = y then a + 1 else a + 1 + 1) (min (a + 2 + 1) (a + 1)))
          :: rowAux x ys ((a + 2) :: ascFrom (a + 3) ys.length)
            (min (if x = y then a + 1 else a + 1 + 1) (min (a + 2 + 1) (a + 1)))
        = ascFrom (a + 1) (y :: ys).length
    have hv : min (if x = y then a + 1 else a + 1 + 1) (min (a + 2 + 1) (a + 1)) = a + 1 := by
      by_cases hxy : x = y <;> simp [hxy] <;> omega
    rw [hv]
    have harg : (a + 2) :: ascFrom (a + 3) ys.length = ascFrom (a + 2) (ys.length + 1) := by
      simp [ascFrom]
    rw [harg, ih (a + 1)]
    simp [ascFrom, List.length_cons]

theorem rowAux_desc (x : Char) :
    ∀ (ys1 ys2 : List Char),
      rowAux x (ys1 ++ x :: ys2)
          (countdown ys1.length ++ ascFrom 1 (ys2.length + 1)) (ys1.length + 1)
        = countdown ys1.length ++ ascFrom 1 ys2.length := by
  intro ys1
  induction ys1 with
  | nil =>
    intro ys2
    have hasc : ascFrom 1 (ys2.length + 1) = 1 :: ascFrom 2 ys2.length := by
      simp [ascFrom]
    show rowAux x (x :: ys2) ([0] ++ ascFrom 1 (ys2.length + 1)) 1
        = [0] ++ ascFrom 1 ys2.length
    rw [hasc]
    show (min (if x = x then 0 else 0 + 1) (min (1 + 1) (1 + 1)))
          :: rowAux x ys2 (1 :: ascFrom 2 ys2.length)
            (min (if x = x then 0 else 0 + 1) (min (1 + 1) (1 + 1)))
        = [0] ++ ascFrom 1 ys2.length
    have hv : min (if x = x then 0 else 0 + 1) (min (1 + 1) (1 + 1)) = 0 := by simp
    rw [hv]
    have harg : (1 : Nat) :: ascFrom 2 ys2.length = ascFrom (0 + 1) (ys2.length + 1) := by
      simp [ascFrom]
    rw [harg, rowAux_asc x ys2 0]
    simp [ascFrom]
  | cons y ys1 ih =>
    intro ys2
    have hcd : countdown (y :: ys1).length ++ ascFrom 1 (ys2.length + 1)
        = (ys1.length + 1) :: (ys1.length
            :: ((countdown ys1.length).tail ++ ascFrom 1 (ys2.length + 1))) := by
      show (ys1.length + 1) :: (countdown ys1.length ++ ascFrom 1 (ys2.length + 1))
          = (ys1.length + 1) :: (ys1.length
              :: ((countdown ys1.length).tail ++ ascFrom 1 (ys2.length + 1)))
      rw [countdown_append_cons]
    rw [hcd]
    show (min (if x = y then ys1.length + 1 else ys1.length + 1 + 1)
            (min (ys1.length + 1) (ys1.length + 1 + 1 + 1)))
          :: rowAux x (ys1 ++ x :: ys2)
            (ys1.length :: ((countdown ys1.length).tail ++ ascFrom 1 (ys2.length + 1)))
            (min (if x = y then ys1.length + 1 else ys1.length + 1 + 1)
              (min (ys1.length + 1) (ys1.length + 1 + 1 + 1)))
        = countdown (y :: ys1).length ++ ascFrom 1 ys2.length
    have hv : min (if x = y then ys1.length + 1 else ys1.length + 1 + 1)
        (min (ys1.length + 1) (ys1.length + 1 + 1 + 1)) = ys1.length + 1 := by
      by_cases hxy : x = y <;> simp [hxy] <;> omega
    rw [hv]
    have harg : ys1.length :: ((countdown ys1.length).tail ++ ascFrom 1 (ys2.length + 1))
        = countdown ys1.length ++ ascFrom 1 (ys2.length + 1) :=
      (countdown_append_cons _ _).symm
    rw [harg, ih ys2]
    show (ys1.length + 1) :: (countdown ys1.length ++ ascFrom 1 ys2.length)
        = countdown (y :: ys1).length ++ ascFrom 1 ys2.length
    simp [countdown, List.length_cons]

theorem foldl_levRow_self :
    ∀ (ys2 ys1 : List Char),
      List.foldl (fun prev x => levRow x (ys1 ++ ys2) prev)
        (countdown ys1.length ++ ascFrom 1 ys2.length) ys2
      = countdown (ys1.length + ys2.length) := by
  intro ys2
  induction ys2 with
  | nil => intro ys1; simp [ascFrom]
  | cons x ys2 ih =>
    intro ys1
    rw [List.foldl_cons]
    have hrow : levRow x (ys1 ++ x :: ys2)
        (countdown ys1.length ++ ascFrom 1 (x :: ys2).length)
        = countdown (ys1.length + 1) ++ ascFrom 1 ys2.length := by
      rw [show (x :: ys2).length = ys2.length + 1 from rfl]
      rw [countdown_append_cons]
      show (ys1.length + 1)
            :: rowAux x (ys1 ++ x :: ys2)
              (ys1.length :: ((countdown ys1.length).tail ++ ascFrom 1 (ys2.length + 1)))
              (ys1.length + 1)
          = countdown (ys1.length + 1) ++ ascFrom 1 ys2.length
      rw [← countdown_append_cons, rowAux_desc]
      simp [countdown]
    rw [hrow]
    have hl : ys1 ++ x :: ys2 = (ys1 ++ [x]) ++ ys2 := by simp
    have hlen : ys1.length + 1 = (ys1 ++ [x]).length := by simp
    rw [hl, hlen, ih (ys1 ++ [x])]
    congr 1
    simp
    omega

theorem levDist_self (l : List Char) : levDist l l = 0 := by
  have h0 : (0 : Nat) :: ascFrom 1 l.length = countdown 0 ++ ascFrom 1 l.length := rfl
  have hcd : ∀ (n : Nat) (d : Nat), (countdown n).getLastD d = 0 := by
    intro n
    induction n with
    | zero => intro d; rfl
    | succ n ih =>
      intro d
      rw [show countdown (n + 1) = (n + 1) :: countdown n from rfl, List.getLastD_cons]
      exact ih _
  have := foldl_levRow_self l []
  simp only [List.nil_append, List.length_nil, Nat.zero_add] at this
  rw [levDist, h0]
  rw [show countdown 0 = [0] from rfl] at this ⊢
  rw [show ([0] : List Nat) ++ ascFrom 1 l.length = 0 :: ascFrom 1 l.length from rfl] at this ⊢
  rw [this]
  exact hcd l.length 0

theorem ratio01_self (l : List Char) : ratio01 l l = 1 := by
  rw [ratio01, levDist_self]
  simp

theorem ratio01_nonneg (a b : List Char) : 0 ≤ ratio01 a b := le_max_left _ _

theorem ratio01_le_one (a b : List Char) : ratio01 a b ≤ 1 := by
  rw [ratio01]
  apply max_le zero_le_one
  have h : (0 : ℚ) ≤ (levDist a b : ℚ) / ((max a.length b.length : Nat) : ℚ) :=
    div_nonneg (by positivity) (by positivity)
  linarith

theorem foldl_max_nonneg : ∀ (L : List ℚ) (a : ℚ), 0 ≤ a → 0 ≤ L.foldl max a := by
  intro L
  induction L with
  | nil => intro a h; simpa using h
  | cons x L ih => intro a h; exact ih _ (le_trans h (le_max_left _ _))

theorem foldl_max_le_one :
    ∀ (L : List ℚ) (a : ℚ), a ≤ 1 → (∀ q ∈ L, q ≤ 1) → L.foldl max a ≤ 1 := by
  intro L
  induction L with
  | nil => intro a h _; simpa using h
  | cons x L ih =>
    intro a h hL
    exact ih _ (max_le h (hL x (List.mem_cons_self x L)))
      (fun q hq => hL q (List.mem_cons_of_mem _ hq))

theorem collapseWS_length_le : ∀ l : List Char, (collapseWS l).length ≤ l.length := by
  intro l
  induction l with
  | nil => simp [collapseWS]
  | cons a rest ih =>
    cases rest with
    | nil => simp [collapseWS]
    | cons b rest2 =>
      rw [collapseWS]
      split
      · exact le_trans ih (by simp)
      · simpa using ih

theorem trimSpaces_length_le (l : List Char) : (trimSpaces l).length ≤ l.length := by
  rw [trimSpaces]
  calc ((l.dropWhile (fun c => c == ' ')).reverse.dropWhile (fun c => c == ' ')).reverse.length
      = ((l.dropWhile (fun c => c == ' ')).reverse.dropWhile (fun c => c == ' ')).length := by
        rw [List.length_reverse]
    _ ≤ (l.dropWhile (fun c => c == ' ')).reverse.length := (List.dropWhile_sublist _).length_le
    _ = (l.dropWhile (fun c => c == ' ')).length := by rw [List.length_reverse]
    _ ≤ l.length := (List.dropWhile_sublist _).length_le

theorem normChars_length_le (l : List Char) : (normChars l).length ≤ l.length := by
  rw [normChars]
  calc (trimSpaces (collapseWS ((l.map Char.toLower).filterMap _))).length
      ≤ (collapseWS ((l.map Char.toLower).filterMap _)).length := trimSpaces_length_le _
    _ ≤ ((l.map Char.toLower).filterMap _).length := collapseWS_length_le _
    _ ≤ (l.map Char.toLower).length := List.length_filterMap_le _ _
    _ = l.length := List.length_map _ _

theorem spaceRemoved_length_le (l : List Char) : (spaceRemoved l).length ≤ l.length :=
  List.length_filter_le _ _

theorem shingles_eq_nil (l : List Char) (n : Nat) (h : l.length < n) : shingles l n = [] := by
  rw [shingles, show l.length + 1 - n = 0 by omega]
  rfl

theorem shingleSet_eq_nil (s : String) (n : Nat) (h : s.length < n) : shingleSet s n = [] := by
  have hlen : (spaceRemoved (normChars s.data)).length < n :=
    lt_of_le_of_lt (le_trans (spaceRemoved_length_le _) (normChars_length_le _)) h
  rw [shingleSet, shingles_eq_nil _ _ hlen]
  rfl

theorem jaccardQ_nonneg (A B : List (List Char)) : 0 ≤ jaccardQ A B := by
  rw [jaccardQ]
  split
  · exact le_refl 0
  · exact div_nonneg (by positivity) (by positivity)

theorem inter_union_length_le (A B : List (List Char)) (hA : A.Nodup) :
    (interL A B).length ≤ (unionL A B).length := by
  have h1 : (interL A B).Nodup := List.Nodup.filter _ hA
  have h2 : interL A B ⊆ unionL A B := by
    intro x hx
    rw [interL, List.mem_filter] at hx
    rw [unionL]
    exact List.mem_append_right _ (of_decide_eq_true hx.2)
  calc (interL A B).length = (interL A B).toFinset.card :=
        (List.toFinset_card_of_nodup h1).symm
    _ ≤ (unionL A B).toFinset.card := by
        apply Finset.card_le_card
        intro x hx
        rw [List.mem_toFinset] at hx ⊢
        exact h2 hx
    _ ≤ (unionL A B).length := List.toFinset_card_le _

theorem jaccardQ_le_one (A B : List (List Char)) (hA : A.Nodup) : jaccardQ A B ≤ 1 := by
  rw [jaccardQ]
  split
  · exact zero_le_one
  · rename_i h
    push_neg at h
    have hpos : 0 < (unionL A B).length := by
      rcases List.exists_mem_of_ne_nil B h.2 with ⟨b, hb⟩
      exact List.length_pos.mpr (List.ne_nil_of_mem (List.mem_append_right _ hb))
    rw [div_le_one (by exact_mod_cast hpos)]
    exact_mod_cast inter_union_length_le A B hA

theorem ngram_similarity_bounds (s1 s2 : String) (n : Nat) :
    0 ≤ ngram_similarity s1 s2 n ∧ ngram_similarity s1 s2 n ≤ 1 := by
  rw [ngram_similarity]
  split
  · norm_num
  · exact ⟨jaccardQ_nonneg _ _, jaccardQ_le_one _ _ (List.nodup_dedup _)⟩

theorem calculate_similarity_bounds (s1 s2 : String) :
    0 ≤ calculate_similarity s1 s2 ∧ calculate_similarity s1 s2 ≤ 1 := by
  rw [calculate_similarity]
  split
  · norm_num
  · exact ⟨ratio01_nonneg _ _, ratio01_le_one _ _⟩

theorem windowScores_le_one (a b : List Char) : ∀ q ∈ windowScores a b, q ≤ 1 := by
  intro q hq
  rw [windowScores] at hq
  rcases List.mem_map.mp hq with ⟨i, _, rfl⟩
  exact ratio01_le_one _ _

theorem calculate_partial_similarity_bounds (s1 s2 : String) :
    0 ≤ calculate_partial_similarity s1 s2 ∧ calculate_partial_similarity s1 s2 ≤ 1 := by
  rw [calculate_partial_similarity]
  split
  · norm_num
  · split
    · exact ⟨foldl_max_nonneg _ _ le_rfl, foldl_max_le_one _ _ zero_le_one (windowScores_le_one _ _)⟩
    · exact ⟨foldl_max_nonneg _ _ le_rfl, foldl_max_le_one _ _ zero_le_one (windowScores_le_one _ _)⟩

theorem calculate_token_similarity_bounds (s1 s2 : String) :
    0 ≤ calculate_token_similarity s1 s2 ∧ calculate_token_similarity s1 s2 ≤ 1 := by
  rw [calculate_token_similarity]
  split
  · norm_num
  · exact ⟨ratio01_nonneg _ _, ratio01_le_one _ _⟩

theorem phonetic_match_bounds (s1 s2 : String) :
    0 ≤ phonetic_match s1 s2 ∧ phonetic_match s1 s2 ≤ 1 := by
  rw [phonetic_match]
  split_ifs <;> norm_num

theorem clip01_nonneg (q : ℚ) : 0 ≤ clip01 q := le_max_left _ _

theorem clip01_le_one (q : ℚ) : clip01 q ≤ 1 := max_le zero_le_one (min_le_left _ _)

theorem clip01_zero : clip01 0 = 0 := by
  rw [clip01, min_eq_right zero_le_one, max_self]

theorem combined_similarity_bounds (s1 s2 : String) :
    0 ≤ combined_similarity s1 s2 ∧ combined_similarity s1 s2 ≤ 1 := by
  rw [combined_similarity]
  split
  · norm_num
  · exact ⟨clip01_nonneg _, clip01_le_one _⟩

theorem enhanced_performer_match_bounds (n1 n2 : String) :
    0 ≤ enhanced_performer_match n1 n2 ∧ enhanced_performer_match n1 n2 ≤ 1 := by
  rw [enhanced_performer_match]
  constructor
  · exact le_trans (combined_similarity_bounds _ _).1 (le_max_left _ _)
  · exact max_le (combined_similarity_bounds _ _).2 (phonetic_match_bounds _ _).2

theorem interL_self (A : List (List Char)) : interL A A = A :=
  List.filter_eq_self.mpr (fun a ha => decide_eq_true ha)

theorem unionL_self (A : List (List Char)) : unionL A A = A := by
  rw [unionL]
  have h : A.filter (fun a => decide (a ∉ A)) = [] :=
    List.filter_eq_nil.mpr (fun a ha => by simp [ha])
  rw [h, List.nil_append]

theorem jaccardQ_self (A : List (List Char)) (hA : A ≠ []) : jaccardQ A A = 1 := by
  rw [jaccardQ, if_neg (by intro hc; rcases hc with hc | hc <;> exact hA hc)]
  rw [interL_self, unionL_self]
  apply div_self
  have h : 0 < A.length := List.length_pos.mpr hA
  exact_mod_cast h.ne'

theorem shingleSet_ne_nil (s : String) (n : Nat) (hn : 0 < n)
    (hle : n ≤ (spaceRemoved (normChars s.data)).length) : shingleSet s n ≠ [] := by
  rw [shingleSet]
  have hne : shingles (spaceRemoved (normChars s.data)) n ≠ [] := by
    rw [shingles]
    intro hmap
    rw [List.map_eq_nil, List.range_eq_nil] at hmap
    omega
  intro hded
  rcases List.exists_mem_of_ne_nil _ hne with ⟨a, ha⟩
  have hmem : a ∈ (shingles (spaceRemoved (normChars s.data)) n).dedup := List.mem_dedup.mpr ha
  rw [hded] at hmem
  exact absurd hmem (List.not_mem_nil a)

theorem ngram_similarity_self (s : String) (n : Nat) (hs : s ≠ "")
    (hA : shingleSet s n ≠ []) : ngram_similarity s s n = 1 := by
  rw [ngram_similarity, if_neg (by intro hc; exact hs hc.1)]
  exact jaccardQ_self _ hA

theorem calculate_similarity_self (s : String) (ht : normChars s.data ≠ []) :
    calculate_similarity s s = 1 := by
  simp only [calculate_similarity]
  rw [if_neg (by intro hc; rcases hc with hc | hc <;> exact ht hc)]
  exact ratio01_self _

theorem calculate_partial_similarity_self (s : String) (ht : normChars s.data ≠ []) :
    calculate_partial_similarity s s = 1 := by
  simp only [calculate_partial_similarity]
  rw [if_neg (by intro hc; rcases hc with hc | hc <;> exact ht hc), if_pos le_rfl]
  have hw : windowScores (normChars s.data) (normChars s.data) = [1] := by
    rw [windowScores, Nat.sub_self]
    rw [show List.range 1 = [0] from rfl]
    rw [List.map_cons, List.map_nil, List.drop_zero, List.take_length, ratio01_self]
  rw [hw]
  show max 0 1 = 1
  exact max_eq_right zero_le_one

theorem calculate_token_similarity_self (s : String) (ht : normChars s.data ≠ []) :
    calculate_token_similarity s s = 1 := by
  simp only [calculate_token_similarity]
  rw [if_neg (by intro hc; rcases hc with hc | hc <;> exact ht hc)]
  exact ratio01_self _

theorem shingleSet_eq_nil_of_norm (s : String) (n : Nat) (hn : 0 < n)
    (h : normChars s.data = []) : shingleSet s n = [] := by
  rw [shingleSet, h]
  rw [shingles_eq_nil _ _ (by simpa [spaceRemoved] using hn)]
  rfl

/-- Claim C2 counterexample: for the one-character string "a" the bigram and
trigram shingle sets are empty, so those components score 0 and the
combined self-similarity falls short of 1. -/
theorem combined_self_short_counterexample : combined_similarity "a" "a" ≠ 1 := by
  have ht : normChars "a".data ≠ [] := by decide
  have hb2 : ngram_similarity "a" "a" 2 = 0 := by
    rw [ngram_similarity, if_neg (by decide), jaccardQ,
      if_pos (Or.inl (shingleSet_eq_nil "a" 2 (by decide)))]
  have hb3 : ngram_similarity "a" "a" 3 = 0 := by
    rw [ngram_similarity, if_neg (by decide), jaccardQ,
      if_pos (Or.inl (shingleSet_eq_nil "a" 3 (by decide)))]
  rw [combined_similarity, if_neg (by decide)]
  have hws : weightedSum (similarityComponents "a" "a") = 13/20 := by
    simp only [weightedSum, similarityComponents]
    rw [calculate_similarity_self "a" ht, calculate_partial_similarity_self "a" ht,
      calculate_token_similarity_self "a" ht, hb2, hb3]
    norm_num
  rw [hws, clip01, min_eq_right (by norm_num), max_eq_right (by norm_num)]
  norm_num

/-- Self-similarity of the combiner is 1 for strings whose normalised,
space-removed form has at least three characters. -/
theorem combined_self_of_three (s : String)
    (h : 3 ≤ (spaceRemoved (normChars s.data)).length) :
    combined_similarity s s = 1 := by
  have hs : s ≠ "" := by
    intro he
    subst he
    exact absurd h (by decide)
  have ht : normChars s.data ≠ [] := by
    intro hnil
    rw [hnil] at h
    exact absurd h (by decide)
  rw [combined_similarity, if_neg (by intro hc; rcases hc with hc | hc <;> exact hs hc)]
  have hb2 : ngram_similarity s s 2 = 1 :=
    ngram_similarity_self s 2 hs (shingleSet_ne_nil s 2 (by norm_num) (by omega))
  have hb3 : ngram_similarity s s 3 = 1 :=
    ngram_similarity_self s 3 hs (shingleSet_ne_nil s 3 (by norm_num) h)
  have hws : weightedSum (similarityComponents s s) = 1 := by
    simp only [weightedSum, similarityComponents]
    rw [calculate_similarity_self s ht, calculate_partial_similarity_self s ht,
      calculate_token_similarity_self s ht, hb2, hb3]
    norm_num
  rw [hws, clip01, min_self]
  exact max_eq_right zero_le_one

/-- Claim C2 (amended): `combined_similarity s s = 1` for every string `s`
whose normalised, space-removed form has at least three characters (so
that the bigram and trigram shingle sets are non-empty); for shorter
strings the n-gram components are 0 by the spec's own edge convention and
the self-similarity is below 1. -/
theorem combined_self_eq_one (s : String)
    (h : 3 ≤ (spaceRemoved (normChars s.data)).length) :
    combined_similarity s s = 1 :=
  combined_self_of_three s h

/-- Witness for the amended Claim C2 at the concrete string "abc". -/
theorem combined_self_eq_one_witness :
    3 ≤ (spaceRemoved (normChars "abc".data)).length ∧ combined_similarity "abc" "abc" = 1 :=
  ⟨by decide, combined_self_eq_one "abc" (by decide)⟩

/-- Claim C6: each similarity primitive and the combiner return 0 whenever
either input normalises to the empty string (in particular whenever either
raw input is empty), with no exception possible. -/
theorem empty_inputs_yield_zero (s1 s2 : String)
    (h : normChars s1.data = [] ∨ normChars s2.data = []) :
    calculate_similarity s1 s2 = 0 ∧ calculate_partial_similarity s1 s2 = 0 ∧
    calculate_token_similarity s1 s2 = 0 ∧ combined_similarity s1 s2 = 0 := by
  refine ⟨?_, ?_, ?_, ?_⟩
  · simp only [calculate_similarity]
    rw [if_pos h]
  · simp only [calculate_partial_similarity]
    rw [if_pos h]
  · simp only [calculate_token_similarity]
    rw [if_pos h]
  · by_cases hg : s1 = "" ∨ s2 = ""
    · rw [combined_similarity, if_pos hg]
    · rw [combined_similarity, if_neg hg]
      have hsh : ∀ n, 0 < n → shingleSet s1 n = [] ∨ shingleSet s2 n = [] := by
        intro n hn
        rcases h with h | h
        · exact Or.inl (shingleSet_eq_nil_of_norm s1 n hn h)
        · exact Or.inr (shingleSet_eq_nil_of_norm s2 n hn h)
      have hb2 : ngram_similarity s1 s2 2 = 0 := by
        rw [ngram_similarity, if_neg (by intro hc; exact hg (Or.inl hc.1)), jaccardQ,
          if_pos (hsh 2 (by norm_num))]
      have hb3 : ngram_similarity s1 s2 3 = 0 := by
        rw [ngram_similarity, if_neg (by intro hc; exact hg (Or.inl hc.1)), jaccardQ,
          if_pos (hsh 3 (by norm_num))]
      have hws : weightedSum (similarityComponents s1 s2) = 0 := by
        simp only [weightedSum, similarityComponents, calculate_similarity,
          calculate_partial_similarity, calculate_token_similarity]
        rw [if_pos h, if_pos h, if_pos h, hb2, hb3]
        norm_num
      rw [hws, clip01_zero]

/-- Witness for Claim C6: "." normalises to the empty string, and every
metric on (".", "ab") is 0. -/
theorem empty_inputs_yield_zero_witness :
    (normChars ".".data = [] ∨ normChars "ab".data = []) ∧ combined_similarity "." "ab" = 0 :=
  ⟨Or.inl (by decide), (empty_inputs_yield_zero "." "ab" (Or.inl (by decide))).2.2.2⟩

/-- Claim C7: when either input is shorter than `n`, its shingle set is
empty and `ngram_similarity` returns 0, except that two empty inputs score
1. -/
theorem ngram_short_inputs (s1 s2 : String) (n : Nat)
    (h : s1.length < n ∨ s2.length < n) :
    ngram_similarity s1 s2 n = if s1 = "" ∧ s2 = "" then 1 else 0 := by
  by_cases hb : s1 = "" ∧ s2 = ""
  · rw [if_pos hb, ngram_similarity, if_pos hb]
  · rw [if_neg hb, ngram_similarity, if_neg hb]
    rcases h with h | h
    · rw [jaccardQ, if_pos (Or.inl (shingleSet_eq_nil s1 n h))]
    · rw [jaccardQ, if_pos (Or.inr (shingleSet_eq_nil s2 n h))]

/-- Witness for Claim C7 at ("ab", "x") with n = 3. -/
theorem ngram_short_inputs_witness :
    ("ab".length < 3 ∨ "x".length < 3) ∧ ngram_similarity "ab" "x" 3 = 0 := by
  refine ⟨Or.inl (by decide), ?_⟩
  have h := ngram_short_inputs "ab" "x" 3 (Or.inl (by decide))
  rwa [if_neg (by decide)] at h

/-- Claim C8: the debug variant of the combiner returns exactly the same
final value as the plain variant; the flag only exposes the component
breakdown. -/
theorem debug_preserves_final (s1 s2 : String) :
    (combined_similarity_debug s1 s2).1 = combined_similarity s1 s2 := rfl

/-- Claim C5: with an absent parsed performer the performer component is 0
and the final score averages only over the available components: it is the
clipped sum of the title similarity and the studio bonus, with the title
at full weight rather than the performer counting as a mismatch. -/
theorem missing_performer_excluded (filename : String) (scene : SceneData)
    (parsed_title : String) (detected_studio : Option String) :
    (calculate_match_confidence filename scene none parsed_title detected_studio).performer_similarity
        = 0 ∧
    (calculate_match_confidence filename scene none parsed_title detected_studio).final_score
      = clip01
        ((calculate_match_confidence filename scene none parsed_title detected_studio).title_similarity
          + (calculate_match_confidence filename scene none parsed_title detected_studio).studio_match) := by
  exact ⟨rfl, rfl⟩

theorem ratio01_concrete (a b : List Char) (d m : Nat)
    (hd : levDist a b = d) (hm : max a.length b.length = m)
    (q : ℚ) (hq : max 0 (1 - (d : ℚ) / (m : ℚ)) = q) : ratio01 a b = q := by
  rw [ratio01, hd, hm, hq]

theorem clip01_of_mem (q : ℚ) (h0 : 0 ≤ q) (h1 : q ≤ 1) : clip01 q = q := by
  rw [clip01, min_eq_right h1, max_eq_right h0]

theorem clip01_concrete (x q : ℚ) (hx : x = q) (h0 : 0 ≤ q) (h1 : q ≤ 1) : clip01 x = q := by
  rw [hx]
  exact clip01_of_mem q h0 h1

theorem jaccardQ_concrete (A B : List (List Char)) (hA : A ≠ []) (hB : B ≠ [])
    (i u : Nat) (hi : (interL A B).length = i) (hu : (unionL A B).length = u)
    (q : ℚ) (hq : (i : ℚ) / (u : ℚ) = q) : jaccardQ A B = q := by
  rw [jaccardQ, if_neg (by rintro (h | h); exacts [hA h, hB h]), hi, hu, hq]

theorem ngram_concrete (s1 s2 : String) (n : Nat) (hne : ¬(s1 = "" ∧ s2 = ""))
    (q : ℚ) (hj : jaccardQ (shingleSet s1 n) (shingleSet s2 n) = q) :
    ngram_similarity s1 s2 n = q := by
  rw [ngram_similarity, if_neg hne, hj]

theorem calculate_similarity_concrete (s1 s2 : String)
    (h : ¬(normChars s1.data = [] ∨ normChars s2.data = []))
    (q : ℚ) (hr : ratio01 (normChars s1.data) (normChars s2.data) = q) :
    calculate_similarity s1 s2 = q := by
  simp only [calculate_similarity]
  rw [if_neg h, hr]

theorem calculate_token_similarity_concrete (s1 s2 : String)
    (h : ¬(normChars s1.data = [] ∨ normChars s2.data = []))
    (q : ℚ)
    (hr : ratio01 (joinSpace (sortTokens (wordsOf (normChars s1.data))))
      (joinSpace (sortTokens (wordsOf (normChars s2.data)))) = q) :
    calculate_token_similarity s1 s2 = q := by
  simp only [calculate_token_similarity]
  rw [if_neg h, hr]

theorem calculate_partial_similarity_concrete_le (s1 s2 : String)
    (h : ¬(normChars s1.data = [] ∨ normChars s2.data = []))
    (hle : (normChars s1.data).length ≤ (normChars s2.data).length)
    (q : ℚ)
    (hf : (windowScores (normChars s1.data) (normChars s2.data)).foldl max 0 = q) :
    calculate_partial_similarity s1 s2 = q := by
  simp only [calculate_partial_similarity]
  rw [if_neg h, if_pos hle, hf]

theorem calculate_partial_similarity_concrete_gt (s1 s2 : String)
    (h : ¬(normChars s1.data = [] ∨ normChars s2.data = []))
    (hgt : ¬ (normChars s1.data).length ≤ (normChars s2.data).length)
    (q : ℚ)
    (hf : (windowScores (normChars s2.data) (normChars s1.data)).foldl max 0 = q) :
    calculate_partial_similarity s1 s2 = q := by
  simp only [calculate_partial_similarity]
  rw [if_neg h, if_neg hgt, hf]

theorem combined_concrete (s1 s2 : String) (h : ¬(s1 = "" ∨ s2 = ""))
    (a b c d e : ℚ)
    (h1 : calculate_similarity s1 s2 = a) (h2 : calculate_partial_similarity s1 s2 = b)
    (h3 : calculate_token_similarity s1 s2 = c) (h4 : ngram_similarity s1 s2 2 = d)
    (h5 : ngram_similarity s1 s2 3 = e) (q : ℚ)
    (hq : clip01 ((1/5) * a + (3/20) * b + (3/10) * c + (1/5) * d + (3/20) * e) = q) :
    combined_similarity s1 s2 = q := by
  rw [combined_similarity, if_neg h]
  simp only [weightedSum, similarityComponents]
  rw [h1, h2, h3, h4, h5, hq]

/-- The spec's rescue property (§8) holds in this phonetic model: on the
spelling variants Caitlyn/Kaitlyn both phonetic codes agree (c and k are
the same sound class), so the phonetic score 1 strictly exceeds the
full-ratio similarity 6/7. -/
theorem phonetic_rescue_example :
    calculate_similarity "Caitlyn" "Kaitlyn" < phonetic_match "Caitlyn" "Kaitlyn" := by
  have hph : phonetic_match "Caitlyn" "Kaitlyn" = 1 := by
    simp only [phonetic_match]
    rw [if_neg (by decide), if_pos (by decide), if_pos (by decide)]
  have hfull : calculate_similarity "Caitlyn" "Kaitlyn" = 6/7 :=
    calculate_similarity_concrete _ _ (by decide) _
      (ratio01_concrete _ _ 1 7 (by decide) (by decide) _
        (by rw [max_eq_right (by norm_num)]; norm_num))
  rw [hph, hfull]
  norm_num

/-- Claim C3 counterexample: for the pair ("JMac", "jmaf") the single-char
normalisation rewrites "JMac" to "J Mac", which lowers every lexical
component (21/40 against 51/80 raw), and the phonetic score is 0 because c
and f are genuinely different sounds — they fall in different consonant
classes of any sound-based code, so the spec's "no agreement" case applies
— hence the enhanced score 21/40 drops strictly below the raw combined
similarity 51/80. -/
theorem enhanced_below_combined_counterexample :
    enhanced_performer_match "JMac" "jmaf" < combined_similarity "JMac" "jmaf" := by
  have efA : calculate_similarity "JMac" "jmaf" = 3/4 :=
    calculate_similarity_concrete _ _ (by decide) _
      (ratio01_concrete _ _ 1 4 (by decide) (by decide) _
        (by rw [max_eq_right (by norm_num)]; norm_num))
  have epA : calculate_partial_similarity "JMac" "jmaf" = 3/4 := by
    apply calculate_partial_similarity_concrete_le _ _ (by decide) (by decide)
    rw [windowScores,
      (show (normChars "jmaf".data).length - (normChars "JMac".data).length + 1 = 1 by decide)]
    rw [show List.range 1 = [0] from rfl, List.map_cons, List.map_nil]
    rw [(show ((normChars "jmaf".data).drop 0).take (normChars "JMac".data).length
        = normChars "jmaf".data by decide)]
    rw [ratio01_concrete _ _ 1 4 (by decide) (by decide) (3/4)
      (by rw [max_eq_right (by norm_num)]; norm_num)]
    rw [List.foldl_cons, List.foldl_nil]
    exact max_eq_right (by norm_num)
  have etA : calculate_token_similarity "JMac" "jmaf" = 3/4 :=
    calculate_token_similarity_concrete _ _ (by decide) _
      (ratio01_concrete _ _ 1 4 (by decide) (by decide) _
        (by rw [max_eq_right (by norm_num)]; norm_num))
  have eb2A : ngram_similarity "JMac" "jmaf" 2 = 1/2 :=
    ngram_concrete _ _ 2 (by decide) _
      (jaccardQ_concrete _ _ (by decide) (by decide) 2 4 (by decide) (by decide) _ (by norm_num))
  have eb3A : ngram_similarity "JMac" "jmaf" 3 = 1/3 :=
    ngram_concrete _ _ 3 (by decide) _
      (jaccardQ_concrete _ _ (by decide) (by decide) 1 3 (by decide) (by decide) _ (by norm_num))
  have ecA : combined_similarity "JMac" "jmaf" = 51/80 :=
    combined_concrete _ _ (by decide) _ _ _ _ _ efA epA etA eb2A eb3A _
      (clip01_concrete _ _ (by norm_num) (by norm_num) (by norm_num))
  have efB : calculate_similarity "J Mac" "jmaf" = 3/5 :=
    calculate_similarity_concrete _ _ (by decide) _
      (ratio01_concrete _ _ 2 5 (by decide) (by decide) _
        (by rw [max_eq_right (by norm_num)]; norm_num))
  have epB : calculate_partial_similarity "J Mac" "jmaf" = 1/2 := by
    apply calculate_partial_similarity_concrete_gt _ _ (by decide) (by decide)
    rw [windowScores,
      (show (normChars "J Mac".data).length - (normChars "jmaf".data).length + 1 = 2 by decide)]
    rw [show List.range 2 = [0, 1] from rfl, List.map_cons, List.map_cons, List.map_nil]
    rw [(show ((normChars "J Mac".data).drop 0).take (normChars "jmaf".data).length
        = ['j', ' ', 'm', 'a'] by decide)]
    rw [(show ((normChars "J Mac".data).drop 1).take (normChars "jmaf".data).length
        = [' ', 'm', 'a', 'c'] by decide)]
    rw [ratio01_concrete (normChars "jmaf".data) ['j', ' ', 'm', 'a'] 2 4 (by decide) (by decide)
      (1/2) (by rw [max_eq_right (by norm_num)]; norm_num)]
    rw [ratio01_concrete (normChars "jmaf".data) [' ', 'm', 'a', 'c'] 2 4 (by decide) (by decide)
      (1/2) (by rw [max_eq_right (by norm_num)]; norm_num)]
    rw [List.foldl_cons, List.foldl_cons, List.foldl_nil]
    rw [max_eq_right (by norm_num : (0:ℚ) ≤ 1/2)]
    exact max_self _
  have etB : calculate_token_similarity "J Mac" "jmaf" = 3/5 :=
    calculate_token_similarity_concrete _ _ (by decide) _
      (ratio01_concrete _ _ 2 5 (by decide) (by decide) _
        (by rw [max_eq_right (by norm_num)]; norm_num))
  have eb2B : ngram_similarity "J Mac" "jmaf" 2 = 1/2 :=
    ngram_concrete _ _ 2 (by decide) _
      (jaccardQ_concrete _ _ (by decide) (by decide) 2 4 (by decide) (by decide) _ (by norm_num))
  have eb3B : ngram_similarity "J Mac" "jmaf" 3 = 1/3 :=
    ngram_concrete _ _ 3 (by decide) _
      (jaccardQ_concrete _ _ (by decide) (by decide) 1 3 (by decide) (by decide) _ (by norm_num))
  have ecB : combined_similarity "J Mac" "jmaf" = 21/40 :=
    combined_concrete _ _ (by decide) _ _ _ _ _ efB epB etB eb2B eb3B _
      (clip01_concrete _ _ (by norm_num) (by norm_num) (by norm_num))
  have eph : phonetic_match "J Mac" "jmaf" = 0 := by
    simp only [phonetic_match]
    rw [if_neg (by decide), if_neg (by decide)]
  have een : enhanced_performer_match "JMac" "jmaf" = 21/40 := by
    simp only [enhanced_performer_match]
    rw [show normalize_single_char_name "JMac" = "J Mac" by decide]
    rw [show normalize_single_char_name "jmaf" = "jmaf" by decide]
    rw [ecB, eph]
    exact max_eq_left (by norm_num)
  rw [een, ecA]
  norm_num

/-- Claim C3 (amended): the phonetic-rescue guarantee
`enhanced_performer_match x y ≥ combined_similarity x y` holds for every
pair of names on which single-char-name normalisation is a no-op; for
pairs it rewrites, the guarantee only holds relative to the normalised
names, and the raw-input inequality can fail. -/
theorem enhanced_ge_combined_of_normalized_fixed (x y : String)
    (hx : normalize_single_char_name x = x) (hy : normalize_single_char_name y = y) :
    combined_similarity x y ≤ enhanced_performer_match x y := by
  have h : enhanced_performer_match x y
      = max (combined_similarity x y) (phonetic_match x y) := by
    simp only [enhanced_performer_match]
    rw [hx, hy]
  rw [h]
  exact le_max_left _ _

/-- Witness for the amended Claim C3 at ("Caitlyn", "Kaitlyn"), a pair on
which single-char-name normalisation is a no-op. -/
theorem enhanced_ge_combined_witness :
    normalize_single_char_name "Caitlyn" = "Caitlyn" ∧
    combined_similarity "Caitlyn" "Kaitlyn" ≤ enhanced_performer_match "Caitlyn" "Kaitlyn" :=
  ⟨by decide, enhanced_ge_combined_of_normalized_fixed "Caitlyn" "Kaitlyn" (by decide) (by decide)⟩

theorem perfSim_bounds (p : String) (L : List String) :
    0 ≤ L.foldl (fun acc nm => max acc (enhanced_performer_match p nm)) 0 ∧
      L.foldl (fun acc nm => max acc (enhanced_performer_match p nm)) 0 ≤ 1 := by
  have hmap : L.foldl (fun acc nm => max acc (enhanced_performer_match p nm)) 0
      = (L.map (enhanced_performer_match p)).foldl max 0 := by
    rw [List.foldl_map]
  rw [hmap]
  constructor
  · exact foldl_max_nonneg _ _ le_rfl
  · apply foldl_max_le_one _ _ zero_le_one
    intro q hq
    rcases List.mem_map.mp hq with ⟨nm, _, rfl⟩
    exact (enhanced_performer_match_bounds _ _).2

theorem performerSim_bounds (scene : SceneData) (pp : Option String) :
    0 ≤ performerSim scene pp ∧ performerSim scene pp ≤ 1 := by
  cases pp with
  | none => exact ⟨le_refl 0, zero_le_one⟩
  | some p =>
    rw [performerSim]
    split_ifs
    · exact ⟨le_refl 0, zero_le_one⟩
    · exact perfSim_bounds p _

theorem cmc_performer_bounds (fn : String) (scene : SceneData) (pp : Option String)
    (pt : String) (ds : Option String) :
    0 ≤ (calculate_match_confidence fn scene pp pt ds).performer_similarity ∧
      (calculate_match_confidence fn scene pp pt ds).performer_similarity ≤ 1 := by
  simp only [calculate_match_confidence]
  exact performerSim_bounds scene pp

theorem studioMatchScore_bounds (ds st : Option String) :
    0 ≤ studioMatchScore ds st ∧ studioMatchScore ds st ≤ 1 := by
  cases ds with
  | none => exact ⟨le_refl 0, zero_le_one⟩
  | some d =>
    cases st with
    | none => exact ⟨le_refl 0, zero_le_one⟩
    | some sn =>
      rw [studioMatchScore]
      split_ifs
      · norm_num [studioBonus]
      · exact ⟨le_refl 0, zero_le_one⟩

theorem cmc_studio_bounds (fn : String) (scene : SceneData) (pp : Option String)
    (pt : String) (ds : Option String) :
    0 ≤ (calculate_match_confidence fn scene pp pt ds).studio_match ∧
      (calculate_match_confidence fn scene pp pt ds).studio_match ≤ 1 := by
  simp only [calculate_match_confidence]
  exact studioMatchScore_bounds ds scene.studio

/-- Claim C1 counterexample: at the pair ("", "") the combiner returns 0 by
its empty-input guard, while the n-gram components score 1 on two empty
inputs, so the clipped weighted component sum is 7/20 and the "final score
equals the clipped weighted sum of the component metrics" equation fails
there. -/
theorem combined_clip_eq_fails_both_empty :
    combined_similarity "" "" ≠ clip01 (weightedSum (similarityComponents "" "")) := by
  have h0 : combined_similarity "" "" = 0 := by
    rw [combined_similarity, if_pos (Or.inl rfl)]
  have hf : calculate_similarity "" "" = 0 := by
    simp only [calculate_similarity]
    rw [if_pos (Or.inl (by decide))]
  have hp : calculate_partial_similarity "" "" = 0 := by
    simp only [calculate_partial_similarity]
    rw [if_pos (Or.inl (by decide))]
  have htk : calculate_token_similarity "" "" = 0 := by
    simp only [calculate_token_similarity]
    rw [if_pos (Or.inl (by decide))]
  have hb2 : ngram_similarity "" "" 2 = 1 := by
    rw [ngram_similarity, if_pos ⟨rfl, rfl⟩]
  have hb3 : ngram_similarity "" "" 3 = 1 := by
    rw [ngram_similarity, if_pos ⟨rfl, rfl⟩]
  have hws : weightedSum (similarityComponents "" "") = 7/20 := by
    simp only [weightedSum, similarityComponents]
    rw [hf, hp, htk, hb2, hb3]
    norm_num
  rw [h0, hws, clip01, min_eq_right (by norm_num), max_eq_right (by norm_num)]
  norm_num

/-- Claim C1 (amended): every similarity and confidence value the engine
returns lies in [0,1]; and for every pair of inputs of which at least one
is non-empty, the combined similarity equals the weighted component sum
clipped to [0,1].  At the both-empty pair the combiner returns 0 by its
input guard while the standalone n-gram metrics score 1, so the equation
is restricted to pairs that are not both empty. -/
theorem engine_outputs_unit_interval (s1 s2 : String) (n : Nat) (fn : String)
    (scene : SceneData) (pp : Option String) (pt : String) (ds : Option String) :
    (0 ≤ calculate_similarity s1 s2 ∧ calculate_similarity s1 s2 ≤ 1) ∧
    (0 ≤ calculate_partial_similarity s1 s2 ∧ calculate_partial_similarity s1 s2 ≤ 1) ∧
    (0 ≤ calculate_token_similarity s1 s2 ∧ calculate_token_similarity s1 s2 ≤ 1) ∧
    (0 ≤ ngram_similarity s1 s2 n ∧ ngram_similarity s1 s2 n ≤ 1) ∧
    (0 ≤ phonetic_match s1 s2 ∧ phonetic_match s1 s2 ≤ 1) ∧
    (0 ≤ combined_similarity s1 s2 ∧ combined_similarity s1 s2 ≤ 1) ∧
    (0 ≤ enhanced_performer_match s1 s2 ∧ enhanced_performer_match s1 s2 ≤ 1) ∧
    (0 ≤ (calculate_match_confidence fn scene pp pt ds).title_similarity ∧
      (calculate_match_confidence fn scene pp pt ds).title_similarity ≤ 1) ∧
    (0 ≤ (calculate_match_confidence fn scene pp pt ds).performer_similarity ∧
      (calculate_match_confidence fn scene pp pt ds).performer_similarity ≤ 1) ∧
    (0 ≤ (calculate_match_confidence fn scene pp pt ds).studio_match ∧
      (calculate_match_confidence fn scene pp pt ds).studio_match ≤ 1) ∧
    (0 ≤ (calculate_match_confidence fn scene pp pt ds).final_score ∧
      (calculate_match_confidence fn scene pp pt ds).final_score ≤ 1) ∧
    (¬(s1 = "" ∧ s2 = "") →
      combined_similarity s1 s2 = clip01 (weightedSum (similarityComponents s1 s2))) := by
  refine ⟨calculate_similarity_bounds s1 s2, calculate_partial_similarity_bounds s1 s2,
    calculate_token_similarity_bounds s1 s2, ngram_similarity_bounds s1 s2 n,
    phonetic_match_bounds s1 s2, combined_similarity_bounds s1 s2,
    enhanced_performer_match_bounds s1 s2,
    combined_similarity_bounds pt scene.title,
    cmc_performer_bounds fn scene pp pt ds,
    cmc_studio_bounds fn scene pp pt ds,
    ⟨clip01_nonneg _, clip01_le_one _⟩, ?_⟩
  intro hne
  by_cases hg : s1 = "" ∨ s2 = ""
  · rw [combined_similarity, if_pos hg]
    have hnorm : normChars s1.data = [] ∨ normChars s2.data = [] := by
      rcases hg with hg | hg <;> subst hg
      · exact Or.inl rfl
      · exact Or.inr rfl
    have hsh : ∀ m, 0 < m → shingleSet s1 m = [] ∨ shingleSet s2 m = [] := by
      intro m hm
      rcases hnorm with h | h
      · exact Or.inl (shingleSet_eq_nil_of_norm s1 m hm h)
      · exact Or.inr (shingleSet_eq_nil_of_norm s2 m hm h)
    have hb2 : ngram_similarity s1 s2 2 = 0 := by
      rw [ngram_similarity, if_neg hne, jaccardQ, if_pos (hsh 2 (by norm_num))]
    have hb3 : ngram_similarity s1 s2 3 = 0 := by
      rw [ngram_similarity, if_neg hne, jaccardQ, if_pos (hsh 3 (by norm_num))]
    have hws : weightedSum (similarityComponents s1 s2) = 0 := by
      simp only [weightedSum, similarityComponents, calculate_similarity,
        calculate_partial_similarity, calculate_token_similarity]
      rw [if_pos hnorm, if_pos hnorm, if_pos hnorm, hb2, hb3]
      norm_num
    rw [hws, clip01_zero]
  · rw [combined_similarity, if_neg hg]

/-- Witness for the amended Claim C1 at the pair ("ab", "ab"): the clipped
weighted-sum equation holds there. -/
theorem combined_clip_eq_witness :
    ¬("ab" = "" ∧ "ab" = "") ∧
    combined_similarity "ab" "ab" = clip01 (weightedSum (similarityComponents "ab" "ab")) :=
  ⟨by decide,
    (engine_outputs_unit_interval "ab" "ab" 2 "f" ⟨"", none, [], []⟩ none "" none).2.2.2.2.2.2.2.2.2.2.2
      (by decide)⟩

theorem clip01_mono {a b : ℚ} (h : a ≤ b) : clip01 a ≤ clip01 b :=
  max_le_max le_rfl (min_le_min le_rfl h)

theorem clip01_strict_step (a : ℚ) (h0 : 0 ≤ a) (h1 : clip01 a < 1) :
    clip01 a < clip01 (a + studioBonus) := by
  have hge : 0 ≤ min 1 a := le_min zero_le_one h0
  have h2 : clip01 a = min 1 a := max_eq_right hge
  have ha1 : a < 1 := by
    by_contra hc
    push_neg at hc
    rw [h2, min_eq_left hc] at h1
    exact lt_irrefl 1 h1
  have h3 : clip01 a = a := by
    rw [h2, min_eq_right (le_of_lt ha1)]
  have h4 : a < min 1 (a + studioBonus) :=
    lt_min ha1 (by rw [studioBonus]; linarith)
  calc clip01 a = a := h3
    _ < min 1 (a + studioBonus) := h4
    _ ≤ clip01 (a + studioBonus) := le_max_right _ _

theorem final_score_mono (b : ℚ) (hb : 0 ≤ b) :
    clip01 (b + 0) ≤ clip01 (b + studioBonus) ∧
      (clip01 (b + 0) < 1 → clip01 (b + 0) < clip01 (b + studioBonus)) := by
  rw [add_zero]
  exact ⟨clip01_mono (by rw [studioBonus]; linarith),
    fun h => clip01_strict_step b hb h⟩

theorem baseScore_nonneg (tSim pSim : ℚ) (pp : Option String)
    (ht : 0 ≤ tSim) (hp : 0 ≤ pSim) : 0 ≤ baseScore tSim pSim pp := by
  cases pp with
  | none => exact ht
  | some p =>
    rw [baseScore]
    split_ifs
    · exact ht
    · exact add_nonneg (mul_nonneg (by norm_num) ht) (mul_nonneg (by norm_num) hp)

/-- Claim C4 (amended): an absent or unknown studio never reduces the
score, and a detected studio that normalised-equals the scene's studio
yields a final score at least as large, strictly larger whenever the
no-studio final score is below the 1.0 clip; at saturation the two clipped
scores coincide. -/
theorem studio_bonus_monotone (fn : String) (scene : SceneData) (pp : Option String)
    (pt : String) (d sn : String) (hst : scene.studio = some sn)
    (heq : normChars d.data = normChars sn.data) (hne : normChars d.data ≠ []) :
    (calculate_match_confidence fn scene pp pt none).final_score ≤
      (calculate_match_confidence fn scene pp pt (some d)).final_score ∧
    ((calculate_match_confidence fn scene pp pt none).final_score < 1 →
      (calculate_match_confidence fn scene pp pt none).final_score <
        (calculate_match_confidence fn scene pp pt (some d)).final_score) := by
  simp only [calculate_match_confidence, hst]
  rw [show studioMatchScore none (some sn) = 0 from rfl]
  rw [show studioMatchScore (some d) (some sn)
      = (if normChars d.data = normChars sn.data ∧ normChars d.data ≠ []
        then studioBonus else 0) from rfl, if_pos ⟨heq, hne⟩]
  apply final_score_mono
  exact baseScore_nonneg _ _ pp (combined_similarity_bounds _ _).1
    (performerSim_bounds scene pp).1

/-- Witness for the amended Claim C4: with an empty scene title the
no-studio final score is 0 < 1, and a matching studio strictly raises
it. -/
theorem studio_bonus_monotone_witness :
    (calculate_match_confidence "t" ⟨"", some "Gh", [], []⟩ none "Abc" none).final_score <
      (calculate_match_confidence "t" ⟨"", some "Gh", [], []⟩ none "Abc" (some "Gh")).final_score := by
  apply (studio_bonus_monotone "t" ⟨"", some "Gh", [], []⟩ none "Abc" "Gh" "Gh" rfl rfl
    (by decide)).2
  have hT : combined_similarity "Abc" "" = 0 := by
    rw [combined_similarity, if_pos (Or.inr rfl)]
  simp only [calculate_match_confidence]
  rw [hT]
  rw [show baseScore 0 (performerSim ⟨"", some "Gh", [], []⟩ none) none = 0 from rfl]
  rw [show studioMatchScore none (some "Gh") = 0 from rfl, add_zero, clip01_zero]
  norm_num

/-- Claim C4 counterexample: with a perfect title and performer match the
no-studio final score is already clipped at 1.0, so the otherwise-identical
call with a normalised-equal detected studio is not strictly greater. -/
theorem studio_bonus_not_strict_at_saturation :
    (calculate_match_confidence "t.mp4" ⟨"Abc", some "Gh", [some ⟨"Def", "FEMALE"⟩], []⟩
        (some "Def") "Abc" (some "Gh")).final_score
      = (calculate_match_confidence "t.mp4" ⟨"Abc", some "Gh", [some ⟨"Def", "FEMALE"⟩], []⟩
        (some "Def") "Abc" none).final_score ∧
    normChars "Gh".data = normChars "Gh".data ∧ normChars "Gh".data ≠ [] := by
  have hD : combined_similarity "Def" "Def" = 1 := combined_self_of_three "Def" (by decide)
  have hph : phonetic_match "Def" "Def" = 1 := by
    simp only [phonetic_match]
    rw [if_neg (by decide)]
    norm_num
  have hE : enhanced_performer_match "Def" "Def" = 1 := by
    simp only [enhanced_performer_match]
    rw [show normalize_single_char_name "Def" = "Def" by decide, hD, hph, max_self]
  have hT : combined_similarity "Abc" "Abc" = 1 := combined_self_of_three "Abc" (by decide)
  have hfold : List.foldl (fun acc nm => max acc (enhanced_performer_match "Def" nm)) 0 ["Def"]
      = 1 := by
    rw [List.foldl_cons, List.foldl_nil, hE]
    exact max_eq_right zero_le_one
  have hperf : performerSim ⟨"Abc", some "Gh", [some ⟨"Def", "FEMALE"⟩], []⟩ (some "Def") = 1 := by
    rw [show performerSim ⟨"Abc", some "Gh", [some ⟨"Def", "FEMALE"⟩], []⟩ (some "Def")
        = (if "Def" = "" then 0
          else List.foldl (fun acc nm => max acc (enhanced_performer_match "Def" nm)) 0 ["Def"])
      from rfl]
    rw [if_neg (show ¬ ("Def" = "") by decide), hfold]
  have hsm1 : studioMatchScore (some "Gh") (some "Gh") = studioBonus := by
    rw [show studioMatchScore (some "Gh") (some "Gh")
        = (if normChars "Gh".data = normChars "Gh".data ∧ normChars "Gh".data ≠ []
          then studioBonus else 0) from rfl, if_pos ⟨rfl, by decide⟩]
  have hbase : baseScore 1 1 (some "Def") = 1 := by
    rw [show baseScore 1 1 (some "Def")
        = (if "Def" = "" then (1:ℚ) else (3/5) * 1 + (2/5) * 1) from rfl]
    rw [if_neg (show ¬ ("Def" = "") by decide)]
    norm_num
  refine ⟨?_, rfl, by decide⟩
  simp only [calculate_match_confidence]
  rw [hT, hperf, hbase, hsm1]
  rw [show studioMatchScore none (some "Gh") = 0 from rfl]
  rw [show (1 : ℚ) + studioBonus = 11/10 by rw [studioBonus]; norm_num]
  rw [show (1 : ℚ) + 0 = 1 by norm_num]
  rw [clip01, clip01, min_eq_left (by norm_num), min_self]

/-- The break-at-two collection loop of `get_female_performer_names`
returns the first two qualifying names after the accumulator. -/
theorem collectFemales_eq :
    ∀ (ps : List (Option PerformerRec)) (acc : List String), acc.length ≤ 1 →
      collectFemales ps acc = (acc ++ qualNames ps).take 2 := by
  intro ps
  induction ps with
  | nil =>
    intro acc hacc
    rw [show collectFemales [] acc = acc from rfl,
      show qualNames [] = [] by simp [qualNames]]
    rw [List.append_nil]
    exact (List.take_of_length_le (by omega)).symm
  | cons p rest ih =>
    intro acc hacc
    cases p with
    | none =>
      rw [show collectFemales (none :: rest) acc = collectFemales rest acc from rfl,
        show qualNames (none :: rest) = qualNames rest by simp [qualNames]]
      exact ih acc hacc
    | some r =>
      by_cases hq : qualifies r
      · have hqn : qualNames (some r :: rest) = r.name :: qualNames rest := by
          simp [qualNames, hq]
        rw [show collectFemales (some r :: rest) acc
            = (if 2 ≤ (acc ++ [r.name]).length then acc ++ [r.name]
              else collectFemales rest (acc ++ [r.name])) from by
          simp only [collectFemales]
          rw [if_pos hq]]
        by_cases hlen : 2 ≤ (acc ++ [r.name]).length
        · rw [if_pos hlen]
          have hone : acc.length = 1 := by
            rw [List.length_append, List.length_singleton] at hlen
            omega
          rcases List.length_eq_one.mp hone with ⟨a, rfl⟩
          rw [hqn]
          rfl
        · rw [if_neg hlen]
          have hacc2 : (acc ++ [r.name]).length ≤ 1 := by omega
          rw [ih (acc ++ [r.name]) hacc2, hqn]
          rw [List.append_assoc]
          rfl
      · have hqn : qualNames (some r :: rest) = qualNames rest := by
          simp [qualNames, hq]
        rw [show collectFemales (some r :: rest) acc = collectFemales rest acc from by
          simp only [collectFemales]
          rw [if_neg hq]]
        rw [hqn]
        exact ih acc hacc

/-- Claim C9: `get_female_performer_names` returns exactly the first one or
two qualifying performer names — so it names at most two performers, a
performer whose gender is present and is neither FEMALE nor F
(case-insensitively) nor empty is never included, and the result is `none`
exactly when no performer qualifies, in particular for the empty list. -/
theorem female_names_spec (ps : List (Option PerformerRec)) :
    get_female_performer_names ps =
      (match qualNames ps with
        | [] => none
        | [a] => some a
        | a :: b :: _ => some (a ++ " & " ++ b)) := by
  rw [get_female_performer_names]
  by_cases hps : ps.isEmpty
  · rw [if_pos hps]
    have hnil : ps = [] := List.isEmpty_iff.mp hps
    subst hnil
    rfl
  · rw [if_neg hps]
    rw [collectFemales_eq ps [] (by simp)]
    rw [List.nil_append]
    cases hq : qualNames ps with
    | nil => rfl
    | cons a t =>
      cases t with
      | nil => rfl
      | cons b t2 => rfl

/-- Claim C10: the generated caption never exceeds 1024 characters, and a
caption whose built text exceeds 1024 characters is exactly its first 1020
characters followed by "...". -/
theorem caption_length_bounded (scene : SceneData) (ofn : Option String) (src : String) :
    (generate_clean_caption scene ofn src).length ≤ 1024 ∧
    generate_clean_caption scene ofn src =
      (if 1024 < (buildCaption scene ofn src).length
       then (⟨(buildCaption scene ofn src).data.take 1020⟩ : String) ++ "..."
       else buildCaption scene ofn src) := by
  constructor
  · simp only [generate_clean_caption]
    by_cases h : 1024 < (buildCaption scene ofn src).length
    · rw [if_pos h]
      have h1 : ((⟨(buildCaption scene ofn src).data.take 1020⟩ : String) ++ "...").length
          = ((buildCaption scene ofn src).data.take 1020).length + 3 := by
        rw [String.length_append]
        rfl
      have h2 : ((buildCaption scene ofn src).data.take 1020).length ≤ 1020 := by
        rw [List.length_take]
        omega
      omega
    · rw [if_neg h]
      omega
  · rfl

